import Mathlib

/-!
Shallow embedding of the reminder scheduling and persistence subsystem of the
music-league Discord bot (`storage.js` and `scheduler.js`, together with the
`/remind` command handler of `bot.js`).

Modelling conventions:
* Timestamps are integers (milliseconds since the epoch, the value of
  `Date.getTime()` / `Date.now()`); `new Date(x) <= now` becomes `x ≤ now`.
* The JSON file behind `storage.js` is modelled by the list of records it
  holds; `loadReminders`/`saveReminders` round-trips are the identity on that
  list, except where file parsing itself is under study (see
  `Storage.parseStoreFile`).
* The `activeTimers` JS `Map` is an association list from reminder id to the
  armed timer's description.  `clearTimeout` is modelled by removing the
  entry; the opaque timeout handle is replaced by a description of the armed
  timer (its kind and duration), which is what the proofs observe.
* `setTimeout` callbacks are modelled by explicit functions that take the
  state at expiry time: arming a timer records it in `activeTimers`; the
  effect of its expiry is a separate function applied when the (idealised)
  clock reaches the armed duration.
-/

/-- A stored reminder record, with the fields built in the `/remind` handler
of `bot.js` and persisted by `storage.addReminder`.  The JS field `type` is
named `kind` here (`type` is a Lean keyword); `remindAt` is the spec's
`fireAt`. -/
structure Reminder where
  id : String
  guildId : String
  channelId : String
  kind : String
  deadline : Int
  remindAt : Int
  label : String
  emoji : String
deriving DecidableEq, Repr

/-- Description of an armed `setTimeout` timer: either the intermediate
re-check hop armed when the delay exceeds `MAX_DELAY`, or the terminal timer
whose expiry performs delivery. -/
inductive TimerInfo where
  | intermediate (duration : Int)
  | terminal (duration : Int)
deriving DecidableEq, Repr

/-- The `activeTimers` map (`reminderId -> timeoutHandle`) as an association
list. -/
abbrev Timers := List (String × TimerInfo)

/-- `activeTimers.get(id)` (composed with `has`). -/
def lookupTimer (ts : Timers) (id : String) : Option TimerInfo :=
  (ts.find? (fun p => p.1 == id)).map Prod.snd

/-- `activeTimers.delete(id)`. -/
def eraseTimer (ts : Timers) (id : String) : Timers :=
  ts.filter (fun p => p.1 != id)

/-- `activeTimers.set(id, handle)` (key replaced if present). -/
def setTimer (ts : Timers) (id : String) (info : TimerInfo) : Timers :=
  eraseTimer ts id ++ [(id, info)]

namespace Storage

/-- The parsed content of `reminders.json`. -/
abbrev Store := List Reminder

/-- Outcome of `JSON.parse` on the reminders file.  The file is represented
by the per-record parse outcomes of the records it holds (`none` is a
syntactically corrupt record).  `JSON.parse` is a single all-or-nothing parse
of the whole document, so it succeeds exactly when every record in the file
is well-formed, and a single corrupt record makes the whole parse throw. -/
def parseStoreFile : List (Option Reminder) → Option Store
  | [] => some []
  | none :: _ => none
  | some r :: raws =>
    match parseStoreFile raws with
    | none => none
    | some rs => some (r :: rs)

/-- `loadReminders`: `try { return JSON.parse(readFileSync(...)) } catch
{ return [] }` — a file whose parse throws yields the empty list. -/
def loadReminders (raws : List (Option Reminder)) : Store :=
  (parseStoreFile raws).getD []

/-- `storage.addReminder`: load, push the record, save. -/
def addReminder (s : Store) (r : Reminder) : Store :=
  s ++ [r]

/-- `storage.removeReminder`: load, keep the records whose `id` differs,
save. -/
def removeReminder (s : Store) (id : String) : Store :=
  s.filter (fun r => r.id != id)

/-- `storage.getRemindersForGuild`. -/
def getRemindersForGuild (s : Store) (guildId : String) : Store :=
  s.filter (fun r => r.guildId == guildId)

/-- `storage.getAllReminders`. -/
def getAllReminders (s : Store) : Store :=
  s

end Storage

/-- The scheduler's state: the durable store plus the in-memory
`activeTimers` map. -/
structure SchedState where
  store : Storage.Store
  activeTimers : Timers
deriving DecidableEq, Repr

/-- Fresh state: empty store, no armed timers. -/
def emptySched : SchedState :=
  { store := [], activeTimers := [] }

namespace Scheduler

/-- `const MAX_DELAY = 2147483647` (~24.8 days), the `setTimeout` ceiling. -/
def MAX_DELAY : Int := 2147483647

/-- `scheduleTimer`, parametrised by the `setTimeout` ceiling so that the
delay-chaining property can be stated at the spec's example scale
(`MAX_DELAY = 5`).  `delay ≤ 0`: remove the record and any timer entry, arm
nothing.  `delay > maxDelay`: arm an intermediate hop of `maxDelay` (its
expiry re-runs `scheduleTimer`).  Otherwise: arm the terminal timer for
`delay`. -/
def scheduleTimerW (maxDelay now : Int) (r : Reminder) (st : SchedState) : SchedState :=
  let delay := r.remindAt - now
  if delay ≤ 0 then
    { store := Storage.removeReminder st.store r.id,
      activeTimers := eraseTimer st.activeTimers r.id }
  else if maxDelay < delay then
    { st with activeTimers := setTimer st.activeTimers r.id (TimerInfo.intermediate maxDelay) }
  else
    { st with activeTimers := setTimer st.activeTimers r.id (TimerInfo.terminal delay) }

/-- `scheduleTimer` with the source's `MAX_DELAY`. -/
def scheduleTimer (now : Int) (r : Reminder) (st : SchedState) : SchedState :=
  scheduleTimerW MAX_DELAY now r st

/-- The option fields assembled by the `/remind` handler and spread into the
new record (`{ id, ...opts }`). -/
structure ReminderOpts where
  guildId : String
  channelId : String
  kind : String
  deadline : Int
  remindAt : Int
  label : String
  emoji : String
deriving DecidableEq, Repr

/-- `const reminder = { id, ...opts }`. -/
def mkReminder (id : String) (o : ReminderOpts) : Reminder :=
  { id := id, guildId := o.guildId, channelId := o.channelId, kind := o.kind,
    deadline := o.deadline, remindAt := o.remindAt, label := o.label, emoji := o.emoji }

/-- The first effect of `scheduler.addReminder`: `storage.addReminder(reminder)`,
executed before `scheduleTimer` runs. -/
def persistPhase (id : String) (o : ReminderOpts) (st : SchedState) : SchedState :=
  { st with store := Storage.addReminder st.store (mkReminder id o) }

/-- `scheduler.addReminder`.  `genId` is the value of
`randomUUID().slice(0, 8)` drawn for this call: the generator is external
randomness, so it is passed in explicitly.  No validation is performed here:
the record is persisted first, then `scheduleTimer` runs, and the id is
returned. -/
def addReminder (genId : String) (o : ReminderOpts) (now : Int) (st : SchedState) :
    String × SchedState :=
  (genId, scheduleTimer now (mkReminder genId o) (persistPhase genId o st))

/-- `scheduler.cancelReminder`: look the id up among the guild's records;
absent ⇒ `false`, state untouched; present ⇒ clear any timer, delete the
record (by id alone), `true`. -/
def cancelReminder (guildId id : String) (st : SchedState) : Bool × SchedState :=
  match (Storage.getRemindersForGuild st.store guildId).find? (fun r => r.id == id) with
  | none => (false, st)
  | some _ =>
    (true, { store := Storage.removeReminder st.store id,
             activeTimers := eraseTimer st.activeTimers id })

/-- `scheduler.getReminders`: the guild's records whose `remindAt` is still
in the future, in store order (no sorting in the source). -/
def getReminders (guildId : String) (now : Int) (st : SchedState) : List Reminder :=
  (Storage.getRemindersForGuild st.store guildId).filter (fun r => now < r.remindAt)

/-- One iteration of the `restoreReminders` loop, threading
`(restored, expired, state)`: a record already due is removed from storage
(and only from storage — no delivery, no timer change), a future one is
re-armed via `scheduleTimer`. -/
def restoreStep (now : Int) (acc : Nat × Nat × SchedState) (r : Reminder) :
    Nat × Nat × SchedState :=
  if r.remindAt ≤ now then
    (acc.1, acc.2.1 + 1, { acc.2.2 with store := Storage.removeReminder acc.2.2.store r.id })
  else
    (acc.1 + 1, acc.2.1, scheduleTimer now r acc.2.2)

/-- `scheduler.restoreReminders`: fold the loop over the snapshot
`storage.getAllReminders()`.  The JS reports the two counts in a
`console.log` line; the model returns them. -/
def restoreReminders (now : Int) (st : SchedState) : Nat × Nat × SchedState :=
  (Storage.getAllReminders st.store).foldl (restoreStep now) (0, 0, st)

/-- Outcome of the delivery attempt inside the terminal timer's callback
(fetching the channel and sending the reminder message): it either completes
or throws with a message. -/
inductive DeliveryOutcome where
  | success
  | failure (message : String)
deriving DecidableEq, Repr

/-- The terminal timer's `setTimeout` callback: `try` deliver (exactly one
attempt — the middle component counts the attempts made), `catch` log the
error, `finally` remove the record from storage and the id from
`activeTimers`.  Returns the state after the callback, the number of
delivery attempts, and the error log. -/
def runTerminalCallback (outcome : DeliveryOutcome) (r : Reminder) (st : SchedState) :
    SchedState × Nat × List String :=
  let log : List String :=
    match outcome with
    | DeliveryOutcome.success => []
    | DeliveryOutcome.failure msg => ["Failed to send reminder " ++ r.id ++ ": " ++ msg]
  ({ store := Storage.removeReminder st.store r.id,
     activeTimers := eraseTimer st.activeTimers r.id },
   1, log)

/-- The cleanup a fired (or expired) reminder receives — the `finally` block
of the terminal callback, also the `delay ≤ 0` branch of `scheduleTimer`:
delete the record, clear the timer bookkeeping.  This is the spec's
`onFired`. -/
def onFired (id : String) (st : SchedState) : SchedState :=
  { store := Storage.removeReminder st.store id,
    activeTimers := eraseTimer st.activeTimers id }

/-- The reminder used to trace a timer chain for a given fire time. -/
def hopReminder (fireAt : Int) : Reminder :=
  { id := "hop", guildId := "", channelId := "", kind := "",
    deadline := fireAt, remindAt := fireAt, label := "", emoji := "" }

/-- Trace of the durations of the successive timers `scheduleTimerW` arms
for a reminder firing at `fireAt`, starting at time `now`, under the
idealisation that each armed timer expires exactly after its duration (an
intermediate hop's expiry re-runs `scheduleTimerW` at the advanced clock,
exactly as the source's `setTimeout(() => scheduleTimer(reminder, client),
MAX_DELAY)`).  Fuel-driven so that the trace is computable; `timerHops`
supplies sufficient fuel. -/
def timerHopsAux (maxDelay fireAt : Int) : Nat → Int → List Int
  | 0, _ => []
  | fuel + 1, now =>
    match lookupTimer (scheduleTimerW maxDelay now (hopReminder fireAt) emptySched).activeTimers
        "hop" with
    | none => []
    | some (TimerInfo.terminal d) => [d]
    | some (TimerInfo.intermediate d) => d :: timerHopsAux maxDelay fireAt fuel (now + d)

/-- The full hop trace for a reminder firing at `fireAt`, seen from `now`. -/
def timerHops (maxDelay fireAt now : Int) : List Int :=
  timerHopsAux maxDelay fireAt (fireAt - now).toNat now

/-- The `/remind` command handler of `bot.js`, from the point where the
deadline has been parsed: compute `remindAt = deadline - remindBefore *
60000`, reject it if it is not in the future, otherwise hand the options to
`scheduler.addReminder`.  The error value is the reply text of the rejection
branch. -/
def remindCommand (now deadline remindBefore : Int)
    (guildId channelId kind label emoji : String) (genId : String) (st : SchedState) :
    Except String (String × SchedState) :=
  let remindAt := deadline - remindBefore * 60000
  if remindAt ≤ now then
    Except.error "That reminder time is in the past!"
  else
    Except.ok (addReminder genId
      { guildId := guildId, channelId := channelId, kind := kind,
        deadline := deadline, remindAt := remindAt, label := label, emoji := emoji }
      now st)

/-- Registration sequence: run `scheduler.addReminder` once per element of
`draws`, each element supplying the id drawn by `randomUUID().slice(0, 8)`
for that call together with the options registered. -/
def registerMany (now : Int) (draws : List (String × ReminderOpts)) (st : SchedState) :
    SchedState :=
  draws.foldl (fun s p => (addReminder p.1 p.2 now s).2) st

end Scheduler

/-- Spec-side definition, from the spec's words "in ascending `fireAt`
order": the list is sorted by `remindAt`.  Used only to compare the source's
`getReminders` against the spec's ordering requirement. -/
def sortedByFireAt : List Reminder → Bool
  | [] => true
  | [_] => true
  | a :: b :: t => (decide (a.remindAt ≤ b.remindAt)) && sortedByFireAt (b :: t)

/-! Concrete inputs used by counterexamples and witnesses. -/

/-- Future reminder inserted first, later fire time (listing order study). -/
def rOrderLate : Reminder :=
  { id := "b1", guildId := "g", channelId := "c", kind := "voting",
    deadline := 30, remindAt := 20, label := "Voting", emoji := "v" }

/-- Future reminder inserted second, earlier fire time. -/
def rOrderEarly : Reminder :=
  { id := "a1", guildId := "g", channelId := "c", kind := "submission",
    deadline := 15, remindAt := 10, label := "Submission", emoji := "s" }

/-- Store holding the two listing-order reminders in insertion order. -/
def orderState : SchedState :=
  { store := [rOrderLate, rOrderEarly], activeTimers := [] }

/-- Reminder of guild `g1` with id `x1`. -/
def rAcrossG1 : Reminder :=
  { id := "x1", guildId := "g1", channelId := "c1", kind := "voting",
    deadline := 100, remindAt := 50, label := "Voting", emoji := "v" }

/-- Reminder of a different guild `g2` sharing the id `x1`. -/
def rAcrossG2 : Reminder :=
  { id := "x1", guildId := "g2", channelId := "c2", kind := "submission",
    deadline := 90, remindAt := 40, label := "Submission", emoji := "s" }

/-- Store holding the two same-id reminders of different guilds. -/
def crossScopeState : SchedState :=
  { store := [rAcrossG1, rAcrossG2], activeTimers := [] }

/-! Helper lemmas. -/

/-- After `removeReminder id`, no record with that id can be found in any
guild's view of the store. -/
lemma find?_id_removeReminder (s : Storage.Store) (g id : String) :
    (Storage.getRemindersForGuild (Storage.removeReminder s id) g).find?
      (fun r => r.id == id) = none := by
  rw [List.find?_eq_none]
  intro x hx
  simp only [Storage.getRemindersForGuild, Storage.removeReminder, List.mem_filter,
    bne_iff_ne, ne_eq] at hx
  simp [hx.1.2]

/-- A hit in `cancelReminder`'s lookup is exactly a stored record matching
both guild and id. -/
lemma cancel_lookup_isSome (s : Storage.Store) (g id : String) :
    ((Storage.getRemindersForGuild s g).find? (fun r => r.id == id)).isSome
      = s.any (fun r => r.guildId == g && r.id == id) := by
  rw [Bool.eq_iff_iff]
  simp only [List.find?_isSome, Storage.getRemindersForGuild, List.mem_filter,
    List.any_eq_true, Bool.and_eq_true, beq_iff_eq]
  constructor
  · rintro ⟨x, ⟨hm, hg⟩, hid⟩
    exact ⟨x, hm, hg, hid⟩
  · rintro ⟨x, hm, hg, hid⟩
    exact ⟨x, ⟨hm, hg⟩, hid⟩

/-! Claim theorems. -/

/-- **C9.** The fired-record cleanup (delete the record from the store, clear
the timer-handle bookkeeping — the `finally` block of the terminal callback)
is idempotent: running it twice for the same id yields the same scheduler
state as running it once. -/
theorem onFired_idempotent : ∀ (id : String) (st : SchedState),
    Scheduler.onFired id (Scheduler.onFired id st) = Scheduler.onFired id st := by
  intro id st
  simp [Scheduler.onFired, Storage.removeReminder, eraseTimer, List.filter_filter]

/-- **C10.** `removeReminder` deletes all and only the records whose id
equals the given id, regardless of their guild (scope); consequently a
successful `cancelReminder` in guild `g1` for an id shared with a guild-`g2`
record deletes both records, leaving the store empty. -/
theorem removeReminder_filters_by_id_alone :
    (∀ (id : String) (s : Storage.Store) (r : Reminder),
        r ∈ Storage.removeReminder s id ↔ (r ∈ s ∧ ¬ r.id = id))
    ∧ Scheduler.cancelReminder "g1" "x1" crossScopeState = (true, emptySched) := by
  refine ⟨?_, by decide⟩
  intro id s r
  simp [Storage.removeReminder, List.mem_filter]

/-- **C4.** The terminal timer's callback makes exactly one delivery attempt
and, for every delivery outcome (success or failure), unconditionally deletes
the record from the store and clears the timer bookkeeping; the error log is
empty exactly when delivery succeeded (a failure is reported, never
retried). -/
theorem runTerminalCallback_spec : ∀ (outcome : Scheduler.DeliveryOutcome)
    (r : Reminder) (st : SchedState),
    (Scheduler.runTerminalCallback outcome r st).1
        = { store := Storage.removeReminder st.store r.id,
            activeTimers := eraseTimer st.activeTimers r.id }
    ∧ (Scheduler.runTerminalCallback outcome r st).2.1 = 1
    ∧ ((Scheduler.runTerminalCallback outcome r st).2.2 = []
        ↔ outcome = Scheduler.DeliveryOutcome.success) := by
  intro outcome r st
  cases outcome <;> simp [Scheduler.runTerminalCallback]

/-- **C2 counterexample.** `getReminders` does not sort: with two live
same-guild reminders stored in descending `fireAt` order, the listing returns
them in store order, which is not ascending by `fireAt`. -/
theorem getReminders_unsorted_counterexample :
    Scheduler.getReminders "g" 0 orderState = [rOrderLate, rOrderEarly]
    ∧ rOrderEarly.remindAt < rOrderLate.remindAt
    ∧ sortedByFireAt (Scheduler.getReminders "g" 0 orderState) = false := by
  decide

/-- **C2 (amended).** `getReminders guildId` returns exactly the stored
reminders of that guild whose `fireAt` is still in the future — never a
reminder of a different guild — preserving store (insertion) order (it is a
sublist of the store); it does not sort by `fireAt`. -/
theorem getReminders_spec : ∀ (guildId : String) (now : Int) (st : SchedState),
    List.Sublist (Scheduler.getReminders guildId now st) st.store
    ∧ ∀ r : Reminder,
        r ∈ Scheduler.getReminders guildId now st
          ↔ (r ∈ st.store ∧ r.guildId = guildId ∧ now < r.remindAt) := by
  intro g now st
  constructor
  · exact (List.filter_sublist _).trans (List.filter_sublist _)
  · intro r
    simp only [Scheduler.getReminders, Storage.getRemindersForGuild, List.mem_filter,
      beq_iff_eq, decide_eq_true_eq]
    tauto

/-- **C6.** `cancelReminder guildId id` returns `true` exactly when a stored
reminder with that id exists within the guild; on a hit it deletes the record
and clears any armed timer for the id, on a miss it returns `false` (no
error) with the state untouched; and a repeated cancel for the same id —
run on the state the first call produced — always returns `false`, so of
repeated cancel calls exactly the first successful one returns `true`. -/
theorem cancelReminder_spec : ∀ (guildId id : String) (st : SchedState),
    ((Scheduler.cancelReminder guildId id st).1
        = st.store.any (fun r => r.guildId == guildId && r.id == id))
    ∧ ((Scheduler.cancelReminder guildId id st).2
        = if st.store.any (fun r => r.guildId == guildId && r.id == id)
          then { store := Storage.removeReminder st.store id,
                 activeTimers := eraseTimer st.activeTimers id }
          else st)
    ∧ (Scheduler.cancelReminder guildId id
        (Scheduler.cancelReminder guildId id st).2).1 = false := by
  intro g id st
  cases hf : (Storage.getRemindersForGuild st.store g).find? (fun r => r.id == id) with
  | none =>
    have hs : ((Storage.getRemindersForGuild st.store g).find?
        (fun r => r.id == id)).isSome = false := by rw [hf]; rfl
    rw [cancel_lookup_isSome] at hs
    refine ⟨?_, ?_, ?_⟩ <;> simp [Scheduler.cancelReminder, hf, hs]
  | some r =>
    have hs : ((Storage.getRemindersForGuild st.store g).find?
        (fun r => r.id == id)).isSome = true := by rw [hf]; rfl
    rw [cancel_lookup_isSome] at hs
    refine ⟨?_, ?_, ?_⟩
    · simp [Scheduler.cancelReminder, hf, hs]
    · simp [Scheduler.cancelReminder, hf, hs]
    · simp only [Scheduler.cancelReminder, hf]
      simp [find?_id_removeReminder]

/-- No timer entry for an id survives erasing that id. -/
lemma lookupTimer_eraseTimer_self (ts : Timers) (id : String) :
    lookupTimer (eraseTimer ts id) id = none := by
  have h : (eraseTimer ts id).find? (fun p => p.1 == id) = none := by
    rw [List.find?_eq_none]
    intro x hx
    simp only [eraseTimer, List.mem_filter, bne_iff_ne, ne_eq] at hx
    simp [hx.2]
  simp [lookupTimer, h]

/-- `setTimer` makes the id's entry retrievable. -/
lemma lookupTimer_setTimer_self (ts : Timers) (id : String) (info : TimerInfo) :
    lookupTimer (setTimer ts id info) id = some info := by
  have h : (eraseTimer ts id).find? (fun p => p.1 == id) = none := by
    rw [List.find?_eq_none]
    intro x hx
    simp only [eraseTimer, List.mem_filter, bne_iff_ne, ne_eq] at hx
    simp [hx.2]
  simp [setTimer, lookupTimer, List.find?_append, h]

/-- `scheduleTimerW` on a non-positive delay: record removed, timer entry
cleared, nothing armed. -/
lemma scheduleTimerW_expired (maxDelay now : Int) (r : Reminder) (st : SchedState)
    (h : r.remindAt - now ≤ 0) :
    Scheduler.scheduleTimerW maxDelay now r st
      = { store := Storage.removeReminder st.store r.id,
          activeTimers := eraseTimer st.activeTimers r.id } := by
  simp [Scheduler.scheduleTimerW, h]

/-- `scheduleTimerW` on a delay above the ceiling: an intermediate hop of
`maxDelay` is armed, the store untouched. -/
lemma scheduleTimerW_intermediate (maxDelay now : Int) (r : Reminder) (st : SchedState)
    (hm : 0 ≤ maxDelay) (h : maxDelay < r.remindAt - now) :
    Scheduler.scheduleTimerW maxDelay now r st
      = { st with activeTimers := setTimer st.activeTimers r.id (TimerInfo.intermediate maxDelay) } := by
  have h0 : ¬ r.remindAt - now ≤ 0 := by omega
  simp [Scheduler.scheduleTimerW, h0, h]

/-- `scheduleTimerW` on a positive delay within the ceiling: the terminal
timer is armed for exactly the remaining delay, the store untouched. -/
lemma scheduleTimerW_terminal (maxDelay now : Int) (r : Reminder) (st : SchedState)
    (h0 : 0 < r.remindAt - now) (h1 : r.remindAt - now ≤ maxDelay) :
    Scheduler.scheduleTimerW maxDelay now r st
      = { st with activeTimers := setTimer st.activeTimers r.id (TimerInfo.terminal (r.remindAt - now)) } := by
  have h0' : ¬ r.remindAt - now ≤ 0 := by omega
  have h1' : ¬ maxDelay < r.remindAt - now := by omega
  simp [Scheduler.scheduleTimerW, h0', h1']

/-- Hop-trace step, expired case. -/
lemma timerHopsAux_succ_expired (maxDelay fireAt : Int) (fuel : Nat) (now : Int)
    (h : fireAt - now ≤ 0) :
    Scheduler.timerHopsAux maxDelay fireAt (fuel + 1) now = [] := by
  have hs := scheduleTimerW_expired maxDelay now (Scheduler.hopReminder fireAt) emptySched
    (by simpa [Scheduler.hopReminder] using h)
  simp only [Scheduler.timerHopsAux, hs]
  simp [Scheduler.hopReminder, lookupTimer_eraseTimer_self]

/-- Hop-trace step, terminal case. -/
lemma timerHopsAux_succ_terminal (maxDelay fireAt : Int) (fuel : Nat) (now : Int)
    (h0 : 0 < fireAt - now) (h1 : fireAt - now ≤ maxDelay) :
    Scheduler.timerHopsAux maxDelay fireAt (fuel + 1) now = [fireAt - now] := by
  have hs := scheduleTimerW_terminal maxDelay now (Scheduler.hopReminder fireAt) emptySched
    (by simpa [Scheduler.hopReminder] using h0)
    (by simpa [Scheduler.hopReminder] using h1)
  simp only [Scheduler.timerHopsAux, hs]
  simp [Scheduler.hopReminder, lookupTimer_setTimer_self]

/-- Hop-trace step, intermediate case. -/
lemma timerHopsAux_succ_intermediate (maxDelay fireAt : Int) (fuel : Nat) (now : Int)
    (hm : 0 ≤ maxDelay) (h : maxDelay < fireAt - now) :
    Scheduler.timerHopsAux maxDelay fireAt (fuel + 1) now
      = maxDelay :: Scheduler.timerHopsAux maxDelay fireAt fuel (now + maxDelay) := by
  have hs := scheduleTimerW_intermediate maxDelay now (Scheduler.hopReminder fireAt) emptySched
    hm (by simpa [Scheduler.hopReminder] using h)
  simp only [Scheduler.timerHopsAux, hs]
  simp [Scheduler.hopReminder, lookupTimer_setTimer_self]

/-- Sum and length of the hop trace, by induction on the fuel: the armed
durations add up to the original delay, and there are at most
`ceil(delay / maxDelay)` hops. -/
lemma timerHopsAux_sum_length (maxDelay : Int) (hmax : 0 < maxDelay) (fireAt : Int) :
    ∀ (fuel : Nat) (now : Int), (fireAt - now).toNat ≤ fuel →
      (Scheduler.timerHopsAux maxDelay fireAt fuel now).sum = max (fireAt - now) 0
      ∧ (Scheduler.timerHopsAux maxDelay fireAt fuel now).length
          ≤ ((fireAt - now).toNat + maxDelay.toNat - 1) / maxDelay.toNat := by
  intro fuel
  induction fuel with
  | zero =>
    intro now h
    have h0 : fireAt - now ≤ 0 := by omega
    refine ⟨?_, ?_⟩
    · simp only [Scheduler.timerHopsAux, List.sum_nil]
      exact (max_eq_right h0).symm
    · simp [Scheduler.timerHopsAux]
  | succ n ih =>
    intro now h
    rcases lt_or_le 0 (fireAt - now) with hpos | hnp
    · rcases le_or_lt (fireAt - now) maxDelay with hterm | hint
      · rw [timerHopsAux_succ_terminal maxDelay fireAt n now hpos hterm]
        refine ⟨?_, ?_⟩
        · simp only [List.sum_cons, List.sum_nil, add_zero, max_eq_left hpos.le]
        · simp only [List.length_cons, List.length_nil]
          have hm : 0 < maxDelay.toNat := by omega
          rw [Nat.le_div_iff_mul_le hm]
          omega
      · rw [timerHopsAux_succ_intermediate maxDelay fireAt n now hmax.le hint]
        have hrec := ih (now + maxDelay) (by omega)
        rw [show fireAt - (now + maxDelay) = fireAt - now - maxDelay from by ring] at hrec
        refine ⟨?_, ?_⟩
        · simp only [List.sum_cons, hrec.1]
          rw [max_eq_left (by omega : (0:Int) ≤ fireAt - now - maxDelay), max_eq_left hpos.le]
          ring
        · simp only [List.length_cons]
          have hm : 0 < maxDelay.toNat := by omega
          have e1 : (fireAt - now - maxDelay).toNat + maxDelay.toNat - 1
              = (fireAt - now).toNat - 1 := by omega
          have e2 : (fireAt - now).toNat + maxDelay.toNat - 1
              = ((fireAt - now).toNat - 1) + maxDelay.toNat := by omega
          have hlen := hrec.2
          rw [e1] at hlen
          rw [e2, Nat.add_div_right _ hm]
          omega
    · rw [timerHopsAux_succ_expired maxDelay fireAt n now hnp]
      refine ⟨?_, ?_⟩
      · simp only [List.sum_nil]
        exact (max_eq_right hnp).symm
      · simp

/-- **C3.** Delay chaining (for any positive timer ceiling, source value
`MAX_DELAY = 2147483647`; stated parametrically so the spec's example scale
applies): with remaining delay `D = fireAt - now`, if `D ≤ 0` nothing is
armed and the record is expired (removed, no delivery path exists in
`scheduleTimerW`); if `0 < D ≤ maxDelay` a single terminal timer of duration
`D` is armed; if `D > maxDelay` an intermediate timer of `maxDelay` is armed
and the procedure repeats at the advanced clock, so the hop durations sum to
the original delay and the number of hops is at most
`ceil(D / maxDelay)`; with `maxDelay = 5` and `D = 13` the chain is exactly
the hops 5, 5, 3. -/
theorem delay_chaining_spec (maxDelay : Int) (hmax : 0 < maxDelay) :
    (∀ (now : Int) (r : Reminder) (st : SchedState), r.remindAt - now ≤ 0 →
        (Scheduler.scheduleTimerW maxDelay now r st).store = Storage.removeReminder st.store r.id
        ∧ lookupTimer (Scheduler.scheduleTimerW maxDelay now r st).activeTimers r.id = none)
    ∧ (∀ (now : Int) (r : Reminder) (st : SchedState),
        0 < r.remindAt - now → r.remindAt - now ≤ maxDelay →
        lookupTimer (Scheduler.scheduleTimerW maxDelay now r st).activeTimers r.id
            = some (TimerInfo.terminal (r.remindAt - now))
        ∧ (Scheduler.scheduleTimerW maxDelay now r st).store = st.store)
    ∧ (∀ (now : Int) (r : Reminder) (st : SchedState), maxDelay < r.remindAt - now →
        lookupTimer (Scheduler.scheduleTimerW maxDelay now r st).activeTimers r.id
            = some (TimerInfo.intermediate maxDelay)
        ∧ (Scheduler.scheduleTimerW maxDelay now r st).store = st.store)
    ∧ (∀ (fireAt now : Int),
        (Scheduler.timerHops maxDelay fireAt now).sum = max (fireAt - now) 0
        ∧ (Scheduler.timerHops maxDelay fireAt now).length
            ≤ ((fireAt - now).toNat + maxDelay.toNat - 1) / maxDelay.toNat)
    ∧ Scheduler.timerHops 5 13 0 = [5, 5, 3] := by
  refine ⟨?_, ?_, ?_, ?_, ?_⟩
  · intro now r st h
    rw [scheduleTimerW_expired maxDelay now r st h]
    exact ⟨rfl, lookupTimer_eraseTimer_self _ _⟩
  · intro now r st h0 h1
    rw [scheduleTimerW_terminal maxDelay now r st h0 h1]
    exact ⟨lookupTimer_setTimer_self _ _ _, rfl⟩
  · intro now r st h
    rw [scheduleTimerW_intermediate maxDelay now r st hmax.le h]
    exact ⟨lookupTimer_setTimer_self _ _ _, rfl⟩
  · intro fireAt now
    exact timerHopsAux_sum_length maxDelay hmax fireAt _ now le_rfl
  · decide

/-- Witness for the delay-chaining theorem at the spec's example scale:
ceiling 5, delay 13 gives exactly the hops 5, 5, 3 summing to 13. -/
theorem delay_chaining_witness :
    Scheduler.timerHops 5 13 0 = [5, 5, 3]
    ∧ (Scheduler.timerHops 5 13 0).sum = max ((13:Int) - 0) 0 :=
  ⟨(delay_chaining_spec 5 (by decide)).2.2.2.2,
   ((delay_chaining_spec 5 (by decide)).2.2.2.1 13 0).1⟩

/-- Ids of the records already due at `now` (the ones the recovery loop
deletes). -/
def pastIds (now : Int) (l : List Reminder) : List String :=
  (l.filter (fun r => r.remindAt ≤ now)).map (fun r => r.id)

/-- A future reminder's `scheduleTimer` leaves the store untouched and arms
(exactly) a timer entry for its id. -/
lemma scheduleTimer_future_shape (now : Int) (r : Reminder) (s : SchedState)
    (h : ¬ r.remindAt ≤ now) :
    (Scheduler.scheduleTimer now r s).store = s.store
    ∧ ∃ info, (Scheduler.scheduleTimer now r s).activeTimers
        = setTimer s.activeTimers r.id info := by
  have h0 : 0 < r.remindAt - now := by omega
  rcases le_or_lt (r.remindAt - now) Scheduler.MAX_DELAY with h1 | h1
  · rw [Scheduler.scheduleTimer, scheduleTimerW_terminal _ _ _ _ h0 h1]
    exact ⟨rfl, _, rfl⟩
  · rw [Scheduler.scheduleTimer,
      scheduleTimerW_intermediate _ _ _ _ (by decide) h1]
    exact ⟨rfl, _, rfl⟩

/-- Armed-ness as existence of a map entry. -/
lemma lookupTimer_isSome_iff (ts : Timers) (id : String) :
    (lookupTimer ts id).isSome ↔ ∃ p ∈ ts, p.1 = id := by
  simp [lookupTimer, List.find?_isSome]

/-- Setting any timer preserves armed-ness, and arms the set id. -/
lemma armed_after_setTimer (ts : Timers) (id idSet : String) (info : TimerInfo)
    (h : (lookupTimer ts id).isSome ∨ id = idSet) :
    (lookupTimer (setTimer ts idSet info) id).isSome := by
  rw [lookupTimer_isSome_iff] at *
  rcases h with h | rfl
  · rcases h with ⟨p, hp, hpid⟩
    by_cases he : id = idSet
    · exact ⟨(idSet, info), by simp [setTimer], he.symm⟩
    · refine ⟨p, ?_, hpid⟩
      simp only [setTimer, List.mem_append, eraseTimer, List.mem_filter]
      exact Or.inl ⟨hp, by simp [hpid, he]⟩
  · exact ⟨(id, info), by simp [setTimer], rfl⟩

/-- Counts computed by the recovery fold: `restored` grows by the number of
future records, `expired` by the number of past-due ones. -/
lemma restore_foldl_counts (now : Int) : ∀ (l : List Reminder) (a b : Nat) (s : SchedState),
    (l.foldl (Scheduler.restoreStep now) (a, b, s)).1
        = a + (l.filter (fun r => ¬ r.remindAt ≤ now)).length
    ∧ (l.foldl (Scheduler.restoreStep now) (a, b, s)).2.1
        = b + (l.filter (fun r => r.remindAt ≤ now)).length := by
  intro l
  induction l with
  | nil => intro a b s; simp
  | cons r l ih =>
    intro a b s
    rw [List.foldl_cons]
    by_cases h : r.remindAt ≤ now
    · have hstep : Scheduler.restoreStep now (a, b, s) r
          = (a, b + 1, { s with store := Storage.removeReminder s.store r.id }) := by
        simp [Scheduler.restoreStep, h]
      rw [hstep]
      refine ⟨?_, ?_⟩
      · rw [(ih a (b + 1) _).1]
        simp [h]
      · rw [(ih a (b + 1) _).2]
        simp [h]
        omega
    · have hstep : Scheduler.restoreStep now (a, b, s) r
          = (a + 1, b, Scheduler.scheduleTimer now r s) := by
        simp [Scheduler.restoreStep, h]
      rw [hstep]
      refine ⟨?_, ?_⟩
      · rw [(ih (a + 1) b _).1]
        have h2 : now < r.remindAt := by omega
        simp [h2]
        omega
      · rw [(ih (a + 1) b _).2]
        simp [h]

/-- Store computed by the recovery fold: exactly the records whose id is not
among the past-due ids of the processed snapshot survive. -/
lemma restore_foldl_store (now : Int) : ∀ (l : List Reminder) (a b : Nat) (s : SchedState),
    ((l.foldl (Scheduler.restoreStep now) (a, b, s)).2.2).store
      = s.store.filter (fun x => decide (x.id ∉ pastIds now l)) := by
  intro l
  induction l with
  | nil =>
    intro a b s
    simp [pastIds]
  | cons r l ih =>
    intro a b s
    rw [List.foldl_cons]
    by_cases h : r.remindAt ≤ now
    · have hstep : Scheduler.restoreStep now (a, b, s) r
          = (a, b + 1, { s with store := Storage.removeReminder s.store r.id }) := by
        simp [Scheduler.restoreStep, h]
      have hpast : pastIds now (r :: l) = r.id :: pastIds now l := by
        simp [pastIds, h]
      rw [hstep, ih, Storage.removeReminder, List.filter_filter, hpast]
      apply List.filter_congr
      intro x _
      by_cases h1 : x.id = r.id <;> by_cases h2 : x.id ∈ pastIds now l <;>
        simp [h1, h2]
    · have hstep : Scheduler.restoreStep now (a, b, s) r
          = (a + 1, b, Scheduler.scheduleTimer now r s) := by
        simp [Scheduler.restoreStep, h]
      have hpast : pastIds now (r :: l) = pastIds now l := by
        simp [pastIds, h]
      rw [hstep, ih, (scheduleTimer_future_shape now r s h).1, hpast]

/-- The recovery fold never disarms a timer: armed-ness is preserved. -/
lemma restore_foldl_armed_mono (now : Int) :
    ∀ (l : List Reminder) (acc : Nat × Nat × SchedState) (id : String),
    (lookupTimer acc.2.2.activeTimers id).isSome →
    (lookupTimer ((l.foldl (Scheduler.restoreStep now) acc).2.2).activeTimers id).isSome := by
  intro l
  induction l with
  | nil => intro acc id h; simpa using h
  | cons r l ih =>
    intro acc id h
    rw [List.foldl_cons]
    apply ih
    by_cases hp : r.remindAt ≤ now
    · simpa [Scheduler.restoreStep, hp] using h
    · rcases (scheduleTimer_future_shape now r acc.2.2 hp).2 with ⟨info, hinfo⟩
      have hstep : (Scheduler.restoreStep now acc r).2.2
          = Scheduler.scheduleTimer now r acc.2.2 := by
        simp [Scheduler.restoreStep, hp]
      rw [hstep, hinfo]
      exact armed_after_setTimer _ _ _ _ (Or.inl h)

/-- Every future record of the processed snapshot ends the recovery fold
armed. -/
lemma restore_foldl_arms (now : Int) :
    ∀ (l : List Reminder) (acc : Nat × Nat × SchedState),
    ∀ r ∈ l, ¬ r.remindAt ≤ now →
    (lookupTimer ((l.foldl (Scheduler.restoreStep now) acc).2.2).activeTimers r.id).isSome := by
  intro l
  induction l with
  | nil => intro acc r hr; simp at hr
  | cons x l ih =>
    intro acc r hr hfut
    rw [List.foldl_cons]
    rcases List.mem_cons.mp hr with rfl | hr'
    · apply restore_foldl_armed_mono
      rcases (scheduleTimer_future_shape now r acc.2.2 hfut).2 with ⟨info, hinfo⟩
      have hstep : (Scheduler.restoreStep now acc r).2.2
          = Scheduler.scheduleTimer now r acc.2.2 := by
        simp [Scheduler.restoreStep, hfut]
      rw [hstep, hinfo]
      exact armed_after_setTimer _ _ _ _ (Or.inr rfl)
    · exact ih _ r hr' hfut

/-- Reminder A of the restart example: already due at time 100. -/
def rPastA : Reminder :=
  { id := "aaaa", guildId := "g", channelId := "c", kind := "submission",
    deadline := 60, remindAt := 50, label := "Submission", emoji := "s" }

/-- Reminder B of the restart example: still future at time 100. -/
def rFutureB : Reminder :=
  { id := "bbbb", guildId := "g", channelId := "c", kind := "voting",
    deadline := 300, remindAt := 200, label := "Voting", emoji := "v" }

/-- Store holding A (past) and B (future), no armed timers (fresh start). -/
def restoreExampleState : SchedState :=
  { store := [rPastA, rFutureB], activeTimers := [] }

/-- **C5.** `restoreReminders` processes every stored record (ids assumed
pairwise distinct, as `register` intends): it reports
`restored` = the number of records with future `fireAt` and `expired` = the
number of already-due records, deletes exactly the due records — the
recovery loop contains no delivery path, so no delivery happens — and leaves
every future record with an armed timer. -/
theorem restoreReminders_spec (now : Int) (st : SchedState)
    (hids : (st.store.map (fun r => r.id)).Nodup) :
    (Scheduler.restoreReminders now st).1
        = (st.store.filter (fun r => ¬ r.remindAt ≤ now)).length
    ∧ (Scheduler.restoreReminders now st).2.1
        = (st.store.filter (fun r => r.remindAt ≤ now)).length
    ∧ (Scheduler.restoreReminders now st).2.2.store
        = st.store.filter (fun r => ¬ r.remindAt ≤ now)
    ∧ ∀ r ∈ st.store, ¬ r.remindAt ≤ now →
        (lookupTimer (Scheduler.restoreReminders now st).2.2.activeTimers r.id).isSome := by
  have hc := restore_foldl_counts now st.store 0 0 st
  refine ⟨?_, ?_, ?_, ?_⟩
  · simpa [Scheduler.restoreReminders, Storage.getAllReminders] using hc.1
  · simpa [Scheduler.restoreReminders, Storage.getAllReminders] using hc.2
  · rw [Scheduler.restoreReminders, Storage.getAllReminders,
      restore_foldl_store now st.store 0 0 st]
    apply List.filter_congr
    intro x hx
    have hiff : x.id ∈ pastIds now st.store ↔ x.remindAt ≤ now := by
      constructor
      · intro hmem
        simp only [pastIds, List.mem_map, List.mem_filter, decide_eq_true_eq] at hmem
        rcases hmem with ⟨y, ⟨hy, hyp⟩, hyid⟩
        rwa [List.inj_on_of_nodup_map hids hy hx hyid] at hyp
      · intro hpast
        simp only [pastIds, List.mem_map, List.mem_filter, decide_eq_true_eq]
        exact ⟨x, ⟨hx, hpast⟩, rfl⟩
    by_cases hmem : x.remindAt ≤ now <;> simp [hiff, hmem]
  · intro r hr hfut
    exact restore_foldl_arms now st.store (0, 0, st) r hr hfut

/-- Witness for the recovery theorem at the spec's restart example: store
holding past-due A and future B, recovery at time 100 reports
`{restored: 1, expired: 1}`, deletes A (no delivery), keeps B armed. -/
theorem restoreReminders_witness :
    (Scheduler.restoreReminders 100 restoreExampleState).1 = 1
    ∧ (Scheduler.restoreReminders 100 restoreExampleState).2.1 = 1
    ∧ (Scheduler.restoreReminders 100 restoreExampleState).2.2.store = [rFutureB]
    ∧ (lookupTimer (Scheduler.restoreReminders 100 restoreExampleState).2.2.activeTimers
        rFutureB.id).isSome := by
  have h := restoreReminders_spec 100 restoreExampleState (by decide)
  refine ⟨?_, ?_, ?_, ?_⟩
  · rw [h.1]; decide
  · rw [h.2.1]; decide
  · rw [h.2.2.1]; decide
  · exact h.2.2.2 rFutureB (by decide) (by decide)

/-- Options whose `remindAt` (5) is already past at call time 10. -/
def pastOpts : Scheduler.ReminderOpts :=
  { guildId := "g", channelId := "c", kind := "voting",
    deadline := 8, remindAt := 5, label := "Voting", emoji := "v" }

/-- **C1 counterexample.**  The scheduler-level registration entry point
(`scheduler.addReminder`) called with a past `fireAt` does not fail: its
first effect (`persistPhase`, the `storage.addReminder(reminder)` call that
runs before `scheduleTimer`) persists the record — so a record with past
`fireAt` is written to the durable store — and the call completes, returning
the generated id as on success, raising no `ValidationError`. -/
theorem scheduler_register_past_counterexample :
    Scheduler.mkReminder "pid1" pastOpts
        ∈ (Scheduler.persistPhase "pid1" pastOpts emptySched).store
    ∧ (Scheduler.mkReminder "pid1" pastOpts).remindAt ≤ 10
    ∧ (Scheduler.addReminder "pid1" pastOpts 10 emptySched).1 = "pid1" := by
  decide

/-- **C1 (amended).**  Validation of a past `fireAt` lives only in the
`/remind` command handler, which rejects `remindAt ≤ now` with the
validation reply before the scheduler is ever invoked, leaving the state
untouched; the scheduler-level entry point itself, called with a past
`fireAt`, first persists the record and then `scheduleTimer` immediately
deletes it again, returning the id without error — so after the call the
store is back to its prior content (when the generated id is fresh) and the
id's timer entry is clear. -/
theorem register_past_validation (now : Int) (o : Scheduler.ReminderOpts)
    (genId : String) (st : SchedState) (deadline remindBefore : Int)
    (hpast : o.remindAt ≤ now)
    (hpastCmd : deadline - remindBefore * 60000 ≤ now)
    (hfresh : ∀ r ∈ st.store, r.id ≠ genId) :
    Scheduler.remindCommand now deadline remindBefore o.guildId o.channelId o.kind
        o.label o.emoji genId st
      = Except.error "That reminder time is in the past!"
    ∧ (Scheduler.addReminder genId o now st).2.store = st.store
    ∧ (Scheduler.addReminder genId o now st).2.activeTimers
        = eraseTimer st.activeTimers genId := by
  have hexp := scheduleTimerW_expired Scheduler.MAX_DELAY now (Scheduler.mkReminder genId o)
    (Scheduler.persistPhase genId o st)
    (by simp only [Scheduler.mkReminder]; omega)
  refine ⟨?_, ?_, ?_⟩
  · simp [Scheduler.remindCommand, hpastCmd]
  · rw [show (Scheduler.addReminder genId o now st).2
        = Scheduler.scheduleTimer now (Scheduler.mkReminder genId o)
            (Scheduler.persistPhase genId o st) from rfl,
      Scheduler.scheduleTimer, hexp]
    show Storage.removeReminder (st.store ++ [Scheduler.mkReminder genId o]) genId = st.store
    rw [Storage.removeReminder, List.filter_append]
    have h1 : st.store.filter (fun r => r.id != genId) = st.store :=
      List.filter_eq_self.mpr (fun a ha => by simp [hfresh a ha])
    have h2 : [Scheduler.mkReminder genId o].filter (fun r => r.id != genId) = [] := by
      simp [Scheduler.mkReminder]
    rw [h1, h2, List.append_nil]
  · rw [show (Scheduler.addReminder genId o now st).2
        = Scheduler.scheduleTimer now (Scheduler.mkReminder genId o)
            (Scheduler.persistPhase genId o st) from rfl,
      Scheduler.scheduleTimer, hexp]
    rfl

/-- Witness for the amended registration-validation theorem at the concrete
past options: the command handler rejects, and the scheduler-level call on
the empty store leaves the store empty. -/
theorem register_past_validation_witness :
    pastOpts.remindAt ≤ 10
    ∧ Scheduler.remindCommand 10 8 0 pastOpts.guildId pastOpts.channelId pastOpts.kind
        pastOpts.label pastOpts.emoji "pid2" emptySched
      = Except.error "That reminder time is in the past!"
    ∧ (Scheduler.addReminder "pid2" pastOpts 10 emptySched).2.store = emptySched.store :=
  ⟨by decide,
   (register_past_validation 10 pastOpts "pid2" emptySched 8 0 (by decide) (by decide)
     (fun r hr => by simp [emptySched] at hr)).1,
   (register_past_validation 10 pastOpts "pid2" emptySched 8 0 (by decide) (by decide)
     (fun r hr => by simp [emptySched] at hr)).2.1⟩

/-- A parseable future reminder stored in the same file as a corrupt
record. -/
def rGoodNextToCorrupt : Reminder :=
  { id := "good", guildId := "g", channelId := "c", kind := "voting",
    deadline := 250, remindAt := 200, label := "Voting", emoji := "v" }

/-- Reminders file holding one corrupt record and one parseable record. -/
def corruptFile : List (Option Reminder) :=
  [none, some rGoodNextToCorrupt]

/-- A file containing a corrupt record fails the single whole-file parse. -/
lemma parseStoreFile_of_mem_none :
    ∀ (raws : List (Option Reminder)), none ∈ raws → Storage.parseStoreFile raws = none := by
  intro raws
  induction raws with
  | nil => intro h; simp at h
  | cons x raws ih =>
    intro h
    cases x with
    | none => rfl
    | some r =>
      have hx : none ∈ raws := by
        rcases List.mem_cons.mp h with h1 | h1
        · exact absurd h1.symm (Option.some_ne_none r)
        · exact h1
      simp [Storage.parseStoreFile, ih hx]

/-- A file with only well-formed records parses to exactly those records. -/
lemma parseStoreFile_of_not_mem_none :
    ∀ (raws : List (Option Reminder)), none ∉ raws →
      Storage.parseStoreFile raws = some raws.reduceOption := by
  intro raws
  induction raws with
  | nil => intro _; simp [Storage.parseStoreFile]
  | cons x raws ih =>
    intro h
    cases x with
    | none => exact absurd (List.mem_cons_self none raws) h
    | some r =>
      have hx : none ∉ raws := fun hc => h (List.mem_cons_of_mem _ hc)
      simp [Storage.parseStoreFile, ih hx]

/-- **C7 counterexample.**  `reminders.json` is read with a single
`JSON.parse` of the whole file, so in a store file holding a corrupt record
next to a parseable future record the whole parse fails, `loadReminders`
falls back to the empty list, and recovery restores nothing: the parseable
record is discarded along with the corrupt one instead of being recovered —
recovery of the remaining parseable records does not proceed. -/
theorem recovery_corrupt_record_counterexample :
    some rGoodNextToCorrupt ∈ corruptFile
    ∧ Storage.loadReminders corruptFile = []
    ∧ (Scheduler.restoreReminders 100
        { store := Storage.loadReminders corruptFile, activeTimers := [] }).1 = 0
    ∧ (Scheduler.restoreReminders 100
        { store := Storage.loadReminders corruptFile, activeTimers := [] }).2.1 = 0 := by
  decide

/-- **C7 (amended).**  A parse failure never aborts recovery: the whole-file
parse failure is caught and treated as an empty store, so the recovery pass
completes normally (reporting zero restored and zero expired); but the parse
granularity is the entire file — a single corrupt record makes every record
of the file unavailable, with no per-record skip — while a fully parseable
file yields exactly its records. -/
theorem recovery_corrupt_store (raws : List (Option Reminder)) (now : Int) :
    (none ∈ raws →
        Storage.loadReminders raws = []
        ∧ Scheduler.restoreReminders now
            { store := Storage.loadReminders raws, activeTimers := [] }
          = (0, 0, { store := [], activeTimers := [] }))
    ∧ (none ∉ raws → Storage.loadReminders raws = raws.reduceOption) := by
  constructor
  · intro h
    have hl : Storage.loadReminders raws = [] := by
      simp [Storage.loadReminders, parseStoreFile_of_mem_none raws h]
    refine ⟨hl, ?_⟩
    rw [hl]
    rfl
  · intro h
    simp [Storage.loadReminders, parseStoreFile_of_not_mem_none raws h]

/-- Witness for the corrupt-store recovery theorem: the corrupt example file
loads as empty, and the same file without the corrupt record loads as its
single record. -/
theorem recovery_corrupt_store_witness :
    Storage.loadReminders corruptFile = []
    ∧ Storage.loadReminders [some rGoodNextToCorrupt] = [rGoodNextToCorrupt] := by
  refine ⟨((recovery_corrupt_store corruptFile 0).1 (by decide)).1, ?_⟩
  have h := (recovery_corrupt_store [some rGoodNextToCorrupt] 0).2 (by decide)
  simpa using h

/-- First option set registered with a colliding id draw. -/
def dupOpts1 : Scheduler.ReminderOpts :=
  { guildId := "g", channelId := "c", kind := "submission",
    deadline := 150, remindAt := 120, label := "Submission", emoji := "s" }

/-- Second, different option set registered with the same id draw. -/
def dupOpts2 : Scheduler.ReminderOpts :=
  { guildId := "g", channelId := "c", kind := "voting",
    deadline := 180, remindAt := 160, label := "Voting", emoji := "v" }

/-- The store a registration leaves behind is always a sublist of the prior
store with the new record appended (the `delay ≤ 0` branch of
`scheduleTimer` may filter records of the drawn id back out). -/
lemma addReminder_store_sublist (genId : String) (o : Scheduler.ReminderOpts)
    (now : Int) (st : SchedState) :
    List.Sublist (Scheduler.addReminder genId o now st).2.store
      (st.store ++ [Scheduler.mkReminder genId o]) := by
  rw [show (Scheduler.addReminder genId o now st).2
      = Scheduler.scheduleTimer now (Scheduler.mkReminder genId o)
          (Scheduler.persistPhase genId o st) from rfl]
  by_cases h : (Scheduler.mkReminder genId o).remindAt ≤ now
  · rw [Scheduler.scheduleTimer,
      scheduleTimerW_expired _ _ _ _ (by omega)]
    exact List.filter_sublist _
  · rw [(scheduleTimer_future_shape now _ _ h).1]
    exact List.Sublist.refl _

/-- **C8 counterexample.**  `scheduler.addReminder` performs no collision
check on the 8-character id it draws: if `randomUUID().slice(0, 8)` yields
the same prefix on two registrations, two distinct reminders are stored
sharing one id — generated ids are not unique across all reminders ever
created. -/
theorem id_collision_counterexample :
    (Scheduler.registerMany 100 [("cafe1234", dupOpts1), ("cafe1234", dupOpts2)]
        emptySched).store
      = [Scheduler.mkReminder "cafe1234" dupOpts1, Scheduler.mkReminder "cafe1234" dupOpts2]
    ∧ Scheduler.mkReminder "cafe1234" dupOpts1 ≠ Scheduler.mkReminder "cafe1234" dupOpts2
    ∧ (Scheduler.mkReminder "cafe1234" dupOpts1).id
        = (Scheduler.mkReminder "cafe1234" dupOpts2).id := by
  decide

/-- **C8 (amended).**  Registration takes its ids verbatim from the random
draws with no collision check against current or past store contents, so
uniqueness of stored ids holds exactly as far as the draws themselves: if
the drawn id sequence is duplicate-free and avoids the ids already stored
(which are themselves pairwise distinct), every id in the resulting store is
distinct.  Truncated random UUIDs make repeats unlikely but nothing in the
code prevents them. -/
theorem register_ids_nodup (now : Int) :
    ∀ (draws : List (String × Scheduler.ReminderOpts)) (st : SchedState),
    (draws.map Prod.fst).Nodup →
    (st.store.map (fun r => r.id)).Nodup →
    (∀ r ∈ st.store, r.id ∉ draws.map Prod.fst) →
    ((Scheduler.registerMany now draws st).store.map (fun r => r.id)).Nodup := by
  intro draws
  induction draws with
  | nil =>
    intro st _ hst _
    exact hst
  | cons p draws ih =>
    intro st hdraws hst hdisj
    rw [show List.map Prod.fst (p :: draws) = p.1 :: List.map Prod.fst draws from rfl]
      at hdraws hdisj
    have hd := List.nodup_cons.mp hdraws
    have hdraws1 : p.1 ∉ draws.map Prod.fst := hd.1
    have hdraws2 : (draws.map Prod.fst).Nodup := hd.2
    have hsub := addReminder_store_sublist p.1 p.2 now st
    have happ : ((st.store ++ [Scheduler.mkReminder p.1 p.2]).map (fun r => r.id)).Nodup := by
      rw [List.map_append, List.nodup_append]
      refine ⟨hst, by simp, ?_⟩
      intro a ha hb
      simp only [List.map_cons, List.map_nil, List.mem_singleton] at hb
      simp only [Scheduler.mkReminder] at hb
      simp only [List.mem_map] at ha
      rcases ha with ⟨r, hr, hrid⟩
      subst hb
      exact hdisj r hr (by simp [hrid])
    have hstNodup : ((Scheduler.addReminder p.1 p.2 now st).2.store.map
        (fun r => r.id)).Nodup :=
      (happ.sublist (hsub.map (fun r => r.id)))
    have hstDisj : ∀ r ∈ (Scheduler.addReminder p.1 p.2 now st).2.store,
        r.id ∉ draws.map Prod.fst := by
      intro r hr
      have hmem := hsub.subset hr
      rcases List.mem_append.mp hmem with h1 | h1
      · intro hc
        exact (hdisj r h1) (by simp [hc])
      · simp only [List.mem_singleton] at h1
        subst h1
        simpa [Scheduler.mkReminder] using hdraws1
    have : Scheduler.registerMany now (p :: draws) st
        = Scheduler.registerMany now draws (Scheduler.addReminder p.1 p.2 now st).2 := rfl
    rw [this]
    exact ih _ hdraws2 hstNodup hstDisj

/-- Witness for the amended id-uniqueness theorem: two registrations with
distinct draws on the empty store leave distinct stored ids. -/
theorem register_ids_nodup_witness :
    ((Scheduler.registerMany 100 [("aa11", dupOpts1), ("bb22", dupOpts2)]
        emptySched).store.map (fun r => r.id)).Nodup := by
  apply register_ids_nodup 100 [("aa11", dupOpts1), ("bb22", dupOpts2)] emptySched
  · decide
  · decide
  · intro r hr
    simp [emptySched] at hr
